import Mathlib

/-!
Verification of the Mininet CLI command dispatcher, topology mutator,
interactive session runner and batch source reader (src/mininet/cli.py),
against the repository's specification.

Python string/line primitives are embedded as executable Lean functions on
`List Char` (wrapped back into `String`), so that every definition evaluates
inside the kernel; the CLI handlers are embedded as pure functions from a
registry value and the raw argument line to a structured result recording the
final registry, the messages written, the engine calls made, and any
exception escaping the handler.
-/

set_option maxHeartbeats 1000000

namespace MininetCLI

/-! Section: Python string primitives -/

/-- Python `str.strip()` at the character-list level. -/
def trimChars (l : List Char) : List Char :=
  ((l.dropWhile Char.isWhitespace).reverse.dropWhile Char.isWhitespace).reverse

/-- Python `str.strip()`. -/
def pyStrip (s : String) : String :=
  ⟨trimChars s.data⟩

/-- Helper for `str.split()`: accumulate the current token (reversed) and cut
at whitespace runs, producing no empty tokens. -/
def splitWsAux : List Char → List Char → List String
  | [], acc => if acc = [] then [] else [⟨acc.reverse⟩]
  | c :: rest, acc =>
    if c.isWhitespace then
      if acc = [] then splitWsAux rest []
      else ⟨acc.reverse⟩ :: splitWsAux rest []
    else splitWsAux rest (c :: acc)

/-- Python `str.split()` (no separator): split on runs of whitespace,
dropping empty pieces. -/
def pySplit (s : String) : List String :=
  splitWsAux s.data []

/-- Helper for `str.split(sep)` with a one-character separator: cut at every
occurrence, keeping empty pieces. -/
def splitChAux (sep : Char) : List Char → List Char → List String
  | [], acc => [⟨acc.reverse⟩]
  | c :: rest, acc =>
    if c = sep then ⟨acc.reverse⟩ :: splitChAux sep rest []
    else splitChAux sep rest (c :: acc)

/-- Python `str.split(sep)` for a one-character separator. -/
def splitCh (sep : Char) (s : String) : List String :=
  splitChAux sep s.data []

/-- Python `' '.join(tokens)`. -/
def joinSp : List String → String
  | [] => ""
  | [x] => x
  | x :: y :: rest => x ++ " " ++ joinSp (y :: rest)

/-- `cmd.Cmd.identchars`: ASCII letters, digits and underscore. -/
def identChar (c : Char) : Bool :=
  c.isAlphanum || c = '_'

/-- `cmd.Cmd.parseline`: strip the line; an empty result yields no command
(`None`); a leading `!` yields no command since the CLI defines no
`do_shell`; a leading `?` is rewritten to `help `; otherwise the command
word is the maximal prefix of identifier characters, the argument text is
the stripped remainder. -/
def parseline (line : String) : Option (String × String) :=
  let l := trimChars line.data
  if l.head? = some '!' then none
  else
    let l2 := if l.head? = some '?' then "help ".data ++ l.drop 1 else l
    match l with
    | [] => none
    | _ :: _ => some (⟨l2.takeWhile identChar⟩, ⟨trimChars (l2.dropWhile identChar)⟩)

/-- Python `'=' in arg`. -/
def hasEq (s : String) : Bool :=
  s.data.any (fun c => c = '=')

/-- Helper for `str.split('=', 1)` at the character-list level:
everything before the first `'='`, and everything after it. -/
def splitFirstEq : List Char → List Char × List Char
  | [] => ([], [])
  | c :: rest =>
    if c = '=' then ([], rest)
    else
      let r := splitFirstEq rest
      (c :: r.1, r.2)

/-- Python `arg.split('=', 1)` (only called after a `'=' in arg` check):
the key before the first `'='` and the value after it. -/
def splitEq1 (s : String) : String × String :=
  let r := splitFirstEq s.data
  (⟨r.1⟩, ⟨r.2⟩)

/-- Decimal digit run to a number, `none` when empty or non-digit. -/
def digitsToNat? (l : List Char) : Option Nat :=
  if l ≠ [] ∧ l.all Char.isDigit then
    some (l.foldl (fun n c => n * 10 + (c.toNat - '0'.toNat)) 0)
  else none

/-- Python `int(...)` on an octet string, approximated as an optional sign
followed by decimal digits, `none` when unparseable (the `ValueError` path). -/
def pyInt? (s : String) : Option Int :=
  match trimChars s.data with
  | [] => none
  | c :: rest =>
    if c = '-' then (digitsToNat? rest).map (fun n => -(n : Int))
    else if c = '+' then (digitsToNat? rest).map (fun n => (n : Int))
    else (digitsToNat? (c :: rest)).map (fun n => (n : Int))

/-! Section: Registry (Mininet network object as seen by the CLI) -/

/-- One registered entity: its unique name and its resolved address
(`defaultIntf().updateIP()` / `IP()`), `none` when the node has no
assigned address. -/
structure Ent where
  name : String
  addr : Option String
deriving DecidableEq, Repr

/-- The CLI's view of the Mininet object: `nameToNode` (as the list `ents`,
in insertion order), the `hosts` list, and the `links` list. -/
structure Mn where
  ents : List Ent
  hosts : List Ent
  links : List (String × String × List (String × String))
deriving DecidableEq, Repr

/-- `self.mn[name]` / `nameToNode` lookup. -/
def Mn.get? (mn : Mn) (n : String) : Option Ent :=
  mn.ents.find? (fun e => e.name == n)

/-- `name in self.mn` (Mininet `__contains__` checks `nameToNode`). -/
def Mn.containsName (mn : Mn) (n : String) : Bool :=
  (mn.get? n).isSome

/-! Section: Command dispatcher: `CLI.default` -/

/-- Result of dispatching one unrecognized-command line. -/
inductive DispatchResult
  | usageError (name : String)
  | unknownCommand (line : String)
  | runOnNode (name : String) (cmd : String)
deriving DecidableEq, Repr

/-- `CLI.default`: re-parse the line; if the command word is a registered
name, require an argument text, split it on single spaces, substitute
`self.mn[arg].defaultIntf().updateIP() or arg` for every token that is a
registered name, re-join with spaces and run the result on the node;
otherwise report an unknown command. -/
def CLI.default (mn : Mn) (line : String) : DispatchResult :=
  match parseline line with
  | none => DispatchResult.unknownCommand line
  | some (first, args) =>
    if Mn.containsName mn first then
      if args = "" then DispatchResult.usageError first
      else
        let rest := (splitCh ' ' args).map (fun tok =>
          match Mn.get? mn tok with
          | some e =>
            (match e.addr with
             | some a => if a = "" then tok else a
             | none => tok)
          | none => tok)
        DispatchResult.runOnNode first (joinSp rest)
    else DispatchResult.unknownCommand line

/-! Section: Topology mutator: `do_addhost` -/

/-- One group of the IP regex `^(\d{1,3}\.){3}\d{1,3}$`: one to three
decimal digits. -/
def isDigitGroup (s : String) : Bool :=
  decide (1 ≤ s.data.length ∧ s.data.length ≤ 3) && s.data.all Char.isDigit

/-- The `do_addhost` IP validation `re.match(r'^(\d{1,3}\.){3}\d{1,3}$', v)`:
four dot-separated groups of one to three decimal digits. -/
def validIp (s : String) : Bool :=
  match splitCh '.' s with
  | [a, b, c, d] => isDigitGroup a && isDigitGroup b && isDigitGroup c && isDigitGroup d
  | _ => false

/-- One hexadecimal character class `[0-9a-fA-F]`. -/
def isHexDigitChar (c : Char) : Bool :=
  c.isDigit || ('a' ≤ c && c ≤ 'f') || ('A' ≤ c && c ≤ 'F')

/-- One group of the MAC regex: exactly two hexadecimal characters. -/
def isHexPair (s : String) : Bool :=
  decide (s.data.length = 2) && s.data.all isHexDigitChar

/-- The `do_addhost` MAC validation
`re.match(r'^([0-9a-fA-F]{2}:){5}[0-9a-fA-F]{2}$', v)`: six colon-separated
two-digit hexadecimal groups. -/
def validMac (s : String) : Bool :=
  match splitCh ':' s with
  | [a, b, c, d, e, f] =>
    isHexPair a && isHexPair b && isHexPair c && isHexPair d && isHexPair e && isHexPair f
  | _ => false

/-- The host class installed by `params['cls'] = Host`: `do_addhost` only
ever uses the default `Host` class. -/
inductive HostCls
  | Host
deriving DecidableEq, Repr

/-- The `params` dictionary `do_addhost` builds: the only keys the parse
loop can store are `ip`, `mac` and `cls`. -/
structure HParams where
  ip : Option String
  mac : Option String
  cls : Option HostCls
deriving DecidableEq, Repr

/-- Console messages written by the handlers (`error(...)`/`output(...)`),
tagged by their format string. -/
inductive Msg
  | usageAddhost
  | usageAddlink
  | duplicate (name : String)
  | invalidIp (v : String)
  | invalidMac (v : String)
  | unknownParam (k : String)
  | addedInfo (name ip mac : String)
  | isolatedInfo (name : String)
  | srcUsage
  | srcIoError (path : String)
deriving DecidableEq, Repr

/-- One iteration of the `do_addhost` parameter loop: arguments without `=`
are skipped; `ip`/`mac` are validated (a malformed value is an error that
returns immediately); for `cls` the supplied value is dropped and the
`Host` class stored; any other key is an unknown-parameter error. -/
def processParam (acc : HParams) (arg : String) : Except Msg HParams :=
  if hasEq arg then
    let kv := splitEq1 arg
    if kv.1 = "ip" then
      if validIp kv.2 then Except.ok { acc with ip := some kv.2 }
      else Except.error (Msg.invalidIp kv.2)
    else if kv.1 = "mac" then
      if validMac kv.2 then Except.ok { acc with mac := some kv.2 }
      else Except.error (Msg.invalidMac kv.2)
    else if kv.1 = "cls" then Except.ok { acc with cls := some HostCls.Host }
    else Except.error (Msg.unknownParam kv.1)
  else Except.ok acc

/-- The whole `do_addhost` parameter loop over `args[1:]`. -/
def parseHostParams : List String → HParams → Except Msg HParams
  | [], acc => Except.ok acc
  | a :: rest, acc =>
    match processParam acc a with
    | Except.ok acc2 => parseHostParams rest acc2
    | Except.error m => Except.error m

/-- The `existing_ips` set: final octets (as Python ints) of the addresses
of hosts whose address splits into four parts with prefix `10.0.0`. -/
def hostOctets (hosts : List Ent) : List Int :=
  hosts.filterMap (fun e =>
    match e.addr with
    | none => none
    | some ip =>
      if ip = "" then none
      else
        match splitCh '.' ip with
        | [a, b, c, d] =>
          if a = "10" && b = "0" && c = "0" then pyInt? d else none
        | _ => none)

/-- The `while next_ip in existing_ips: next_ip += 1` scan, with explicit
fuel (the loop terminates because `existing_ips` is finite). -/
def firstGap (used : List Int) : Nat → Int → Int
  | 0, n => n
  | fuel + 1, n => if n ∈ used then firstGap used fuel (n + 1) else n

/-- The allocated host-number suffix: first gap at or above 1. -/
def nextIp (used : List Int) : Int :=
  firstGap used used.length 1

/-- The auto-generated address `f'10.0.0.{next_ip}'`. -/
def autoIp (hosts : List Ent) : String :=
  "10.0.0." ++ toString (nextIp (hostOctets hosts))

/-- Zero-padded two-digit lowercase hex of `{n:02x}`. -/
def pad2Hex (n : Nat) : String :=
  let ds := Nat.toDigits 16 n
  ⟨(if ds.length < 2 then List.replicate (2 - ds.length) '0' else []) ++ ds⟩

/-- The auto-generated MAC `f'00:00:00:00:00:{host_num:02x}'` with
`host_num = len(self.mn.hosts) + 1`. -/
def autoMac (hostCount : Nat) : String :=
  "00:00:00:00:00:" ++ pad2Hex (hostCount + 1)

/-- The two auto-generation blocks of `do_addhost`: fill in `ip` from the
first free `10.0.0.x` suffix and `mac` from the host count when they were
not supplied. -/
def fillAuto (mn : Mn) (p : HParams) : HParams :=
  let p1 := match p.ip with
            | some _ => p
            | none => { p with ip := some (autoIp mn.hosts) }
  match p1.mac with
  | some _ => p1
  | none => { p1 with mac := some (autoMac mn.hosts.length) }

/-- Modelled from the spec: `Mininet.addHost` is not under `src/` (only its
caller `do_addhost` is). Per the spec it registers the new node in the
Registry under its name, and adding a name that exists must fail without
mutating state. -/
def Mininet.addHost (mn : Mn) (hostname : String) (p : HParams) : Mn :=
  if Mn.containsName mn hostname then mn
  else { mn with ents := mn.ents ++ [⟨hostname, p.ip⟩],
                 hosts := mn.hosts ++ [⟨hostname, p.ip⟩] }

/-- Result of one `do_addhost` invocation: the final registry, the console
messages, and the trace of `mn.addHost` constructor calls. -/
structure AddhostResult where
  mn : Mn
  outputs : List Msg
  calls : List (String × HParams)
deriving DecidableEq, Repr

/-- `do_addhost`: whitespace-split the argument line; no argument is a
usage error; an existing name is a duplicate error with no mutation;
parse the `key=value` parameters (validation errors mutate nothing);
auto-generate missing `ip`/`mac`; then call `mn.addHost` — twice, as the
source does (the second call follows the output messages). -/
def do_addhost (mn : Mn) (line : String) : AddhostResult :=
  match pySplit line with
  | [] => ⟨mn, [Msg.usageAddhost], []⟩
  | hostname :: rest =>
    if Mn.containsName mn hostname then ⟨mn, [Msg.duplicate hostname], []⟩
    else
      match parseHostParams rest ⟨none, none, none⟩ with
      | Except.error m => ⟨mn, [m], []⟩
      | Except.ok p0 =>
        let p2 := fillAuto mn p0
        let mn1 := Mininet.addHost mn hostname p2
        let mn2 := Mininet.addHost mn1 hostname p2
        ⟨mn2,
         [Msg.addedInfo hostname (p2.ip.getD "") (p2.mac.getD ""),
          Msg.isolatedInfo hostname],
         [(hostname, p2), (hostname, p2)]⟩

/-! Section: Topology mutator: `do_addlink` -/

/-- Python dict insertion `params[key] = value`: overwrite in place if the
key exists, else append. -/
def dictInsert : List (String × String) → String → String → List (String × String)
  | [], k, v => [(k, v)]
  | (k2, v2) :: rest, k, v =>
    if k2 = k then (k, v) :: rest else (k2, v2) :: dictInsert rest k v

/-- The `do_addlink` parameter loop over `args[2:]`: every argument
containing `=` is split once at the first `=` and stored as a string-valued
entry; other arguments are skipped; no conversion is applied. -/
def parseLinkParams (args : List String) : List (String × String) :=
  args.foldl (fun ps arg =>
    if hasEq arg then
      let kv := splitEq1 arg
      dictInsert ps kv.1 kv.2
    else ps) []

/-- Modelled from the spec: `Mininet.addLink` is not under `src/` (only its
caller `do_addlink` is). Per the spec the engine resolves both endpoint
names through the Registry — an unknown name fails the lookup (an engine
exception) — and on success constructs the link and registers it. -/
def Mininet.addLink (mn : Mn) (n1 n2 : String) (ps : List (String × String)) :
    Except String Mn :=
  if Mn.containsName mn n1 then
    if Mn.containsName mn n2 then
      Except.ok { mn with links := mn.links ++ [(n1, n2, ps)] }
    else Except.error n2
  else Except.error n1

/-- Result of one `do_addlink` invocation: final registry, console
messages, an exception escaping the handler (the handler has no
`try`/`except`), and the trace of `mn.addLink` calls with their parameter
dictionaries. -/
structure AddlinkResult where
  mn : Mn
  msgs : List Msg
  exn : Option String
  calls : List (String × String × List (String × String))
deriving DecidableEq, Repr

/-- `do_addlink`: whitespace-split the argument line; fewer than two
arguments is a usage error; otherwise parse `key=value` parameters and call
`mn.addLink(node1, node2, **params)` directly — no endpoint validation and
no exception handling in the handler. -/
def do_addlink (mn : Mn) (line : String) : AddlinkResult :=
  match pySplit line with
  | n1 :: n2 :: rest =>
    let ps := parseLinkParams rest
    (match Mininet.addLink mn n1 n2 ps with
     | Except.ok mn2 => ⟨mn2, [], none, [(n1, n2, ps)]⟩
     | Except.error k => ⟨mn, [], some ("KeyError: " ++ k), [(n1, n2, ps)]⟩)
  | _ => ⟨mn, [Msg.usageAddlink], none, []⟩

/-- The tagged value type of the claimed `addlink` parameter dictionary
(numeric vs string); the code-side dictionary holds only strings. -/
inductive PVal
  | num (n : Int)
  | str (s : String)
deriving DecidableEq, Repr

/-- Injection of the code's string-valued dictionary into tagged values. -/
def asPVals (ps : List (String × String)) : List (String × PVal) :=
  ps.map (fun kv => (kv.1, PVal.str kv.2))

/-- The parameter dictionary claim C7 asserts for `addlink a b bw=10
delay=5ms`: `bw` bound to the numeric value 10, `delay` to the string
`5ms` (stated from the claim's words, for comparison with the code). -/
def claimedAddlinkParamsC7 : List (String × PVal) :=
  [("bw", PVal.num 10), ("delay", PVal.str "5ms")]

/-! Section: Interactive session runner: `waitForNode` -/

/-- One iteration's worth of events inside the `waitForNode` loop: either
`bothPoller.poll()` returns (with the console key available, the node
output available, and the node's `waiting` flag as observed after the
reads), or the blocking wait is interrupted by `KeyboardInterrupt`, or it
fails with `select.error` (EINTR or not). -/
inductive Ev
  | pollEv (key : Option Char) (outData : Option String) (waiting : Bool)
  | kbInt
  | selErr (isEintr : Bool)
deriving DecidableEq, Repr

/-- Externally visible actions of `waitForNode`: the `stty` calls, one-byte
forwarding to the node's stdin, draining the node's output, forwarding an
interrupt to the node, and reporting a `select.error`. `sttyRestore` is the
action the claimed scoped release would perform. -/
inductive Act
  | sttyCharMode
  | sttyRestore
  | writeKey (c : Char)
  | printOut (s : String)
  | sendInt
  | reportSelectError
deriving DecidableEq, Repr

/-- The `while True` loop of `waitForNode` over an event trace: on a poll
return, forward the ready console byte, print the ready node output, and
break when the node's `waiting` flag has cleared; on `KeyboardInterrupt`,
send an interrupt to the node and keep looping; on `select.error`, retry
silently for EINTR and otherwise report and send an interrupt. Returns the
emitted actions and whether the loop exited (`break`). -/
def waitForNodeLoop : List Ev → List Act × Bool
  | [] => ([], false)
  | Ev.pollEv key outData waiting :: rest =>
    let acts := (match key with
                 | some c => [Act.writeKey c]
                 | none => [])
             ++ (match outData with
                 | some d => [Act.printOut d]
                 | none => [])
    if waiting then
      let r := waitForNodeLoop rest
      (acts ++ r.1, r.2)
    else (acts, true)
  | Ev.kbInt :: rest =>
    let r := waitForNodeLoop rest
    (Act.sendInt :: r.1, r.2)
  | Ev.selErr isEintr :: rest =>
    if isEintr then waitForNodeLoop rest
    else
      let r := waitForNodeLoop rest
      (Act.reportSelectError :: Act.sendInt :: r.1, r.2)

/-- `waitForNode`: when the console input is a tty, run
`stty -icanon min 1` (character-at-a-time mode), then enter the wait loop.
Nothing is run after the loop. -/
def waitForNode (tty : Bool) (evs : List Ev) : List Act × Bool :=
  let pre := if tty then [Act.sttyCharMode] else []
  let r := waitForNodeLoop evs
  (pre ++ r.1, r.2)

/-! Section: Batch source reader: `do_source` -/

/-- Behavior of the filesystem at the requested path: `open` fails, or
reading fails after some lines were delivered, or the whole file is read. -/
inductive FsBehavior
  | openErr
  | readErr (got : List String)
  | readAll (lines : List String)
deriving DecidableEq, Repr

/-- Result of one `do_source` invocation: console messages, the lines fed
to `onecmd`, an exception escaping the handler, and the final
`self.inputFile` attribute (`none` models Python `None`; `some u` a file
object). -/
structure SourceResult where
  msgs : List Msg
  ran : List String
  exn : Option String
  inputFileAfter : Option Unit
deriving DecidableEq, Repr

/-- `do_source`: exactly one argument required; `with open(path) as
self.inputFile` feeds lines to `onecmd` until EOF (the `with` block
releases the handle); an `IOError` from `open` or `readline` is caught and
reported; afterwards the handler unconditionally runs
`self.inputFile.close()` and `self.inputFile = None` — when `open` failed
and the prior `inputFile` was `None`, that `close()` raises
`AttributeError`, which escapes the handler. -/
def do_source (fs : FsBehavior) (inputFile0 : Option Unit) (line : String) :
    SourceResult :=
  match pySplit line with
  | [path] =>
    (match fs with
     | FsBehavior.readAll lines => ⟨[], lines, none, none⟩
     | FsBehavior.readErr got => ⟨[Msg.srcIoError path], got, none, none⟩
     | FsBehavior.openErr =>
       (match inputFile0 with
        | none =>
          ⟨[Msg.srcIoError path], [],
           some "AttributeError: NoneType object has no attribute close", none⟩
        | some _ => ⟨[Msg.srcIoError path], [], none, none⟩))
  | _ => ⟨[Msg.srcUsage], [], none, inputFile0⟩

/-! Section: Concrete registries for witnesses and counterexamples -/

/-- Registry used for the C1 witness: `h1` and `h3` have addresses,
`h2` has none. -/
def mnSub : Mn :=
  ⟨[⟨"h1", some "10.0.0.1"⟩, ⟨"h2", none⟩, ⟨"h3", some "10.0.0.3"⟩],
   [⟨"h1", some "10.0.0.1"⟩, ⟨"h2", none⟩, ⟨"h3", some "10.0.0.3"⟩], []⟩

/-- The empty registry. -/
def mnEmpty : Mn := ⟨[], [], []⟩

/-- Registry with hosts `h1` (suffix 1) and `h2` (suffix 2). -/
def mn12 : Mn :=
  ⟨[⟨"h1", some "10.0.0.1"⟩, ⟨"h2", some "10.0.0.2"⟩],
   [⟨"h1", some "10.0.0.1"⟩, ⟨"h2", some "10.0.0.2"⟩], []⟩

/-- Registry with only node `a`. -/
def mnA : Mn :=
  ⟨[⟨"a", some "10.0.0.1"⟩], [⟨"a", some "10.0.0.1"⟩], []⟩

/-- Registry with nodes `a` and `b`. -/
def mnAB : Mn :=
  ⟨[⟨"a", some "10.0.0.1"⟩, ⟨"b", some "10.0.0.2"⟩],
   [⟨"a", some "10.0.0.1"⟩, ⟨"b", some "10.0.0.2"⟩], []⟩

/-! Section: Helper lemmas -/

/-- In any list of integers there is a gap at distance at most the list's
length from any starting point. -/
theorem exists_gap (used : List Int) (n : Int) :
    ∃ k : Nat, k ≤ used.length ∧ (n + (k : Int)) ∉ used := by
  by_contra h
  push_neg at h
  have hsub : ((List.range (used.length + 1)).map (fun k : Nat => n + (k : Int)))
      ⊆ used := by
    intro x hx
    rw [List.mem_map] at hx
    obtain ⟨k, hk, rfl⟩ := hx
    rw [List.mem_range] at hk
    exact h k (Nat.lt_succ_iff.mp hk)
  have hnd : ((List.range (used.length + 1)).map (fun k : Nat => n + (k : Int))).Nodup := by
    refine (List.nodup_range _).map ?_
    intro a b hab
    simp only at hab
    have h2 : (a : Int) = (b : Int) := add_left_cancel hab
    exact_mod_cast h2
  have hle := (hnd.subperm hsub).length_le
  rw [List.length_map, List.length_range] at hle
  omega

/-- `firstGap` lands outside the used set when the fuel covers a gap. -/
theorem firstGap_not_mem (used : List Int) :
    ∀ (fuel : Nat) (n : Int), (∃ k : Nat, k ≤ fuel ∧ (n + (k : Int)) ∉ used) →
      firstGap used fuel n ∉ used := by
  intro fuel
  induction fuel with
  | zero =>
    intro n hex
    obtain ⟨k, hk, hnk⟩ := hex
    have hk0 : k = 0 := Nat.le_zero.mp hk
    subst hk0
    simpa [firstGap] using hnk
  | succ fuel ih =>
    intro n hex
    by_cases hmem : n ∈ used
    · obtain ⟨k, hk, hnk⟩ := hex
      have hkpos : k ≠ 0 := by
        intro h0
        subst h0
        simp at hnk
        exact hnk hmem
      obtain ⟨k2, rfl⟩ := Nat.exists_eq_succ_of_ne_zero hkpos
      have h2 : (n + 1) + (k2 : Int) ∉ used := by
        have : n + ((k2 + 1 : Nat) : Int) = (n + 1) + (k2 : Int) := by push_cast; ring
        rwa [this] at hnk
      have := ih (n + 1) ⟨k2, Nat.lt_succ_iff.mp (Nat.lt_of_succ_le hk), h2⟩
      simpa [firstGap, hmem] using this
    · simp [firstGap, hmem]

/-- Everything from the start up to the value `firstGap` returns is in the
used set: the scan returns the first gap. -/
theorem firstGap_min (used : List Int) :
    ∀ (fuel : Nat) (n m : Int), n ≤ m → m < firstGap used fuel n → m ∈ used := by
  intro fuel
  induction fuel with
  | zero =>
    intro n m hnm hlt
    simp [firstGap] at hlt
    omega
  | succ fuel ih =>
    intro n m hnm hlt
    by_cases hmem : n ∈ used
    · simp [firstGap, hmem] at hlt
      by_cases heq : m = n
      · subst heq; exact hmem
      · exact ih (n + 1) m (by omega) hlt
    · simp [firstGap, hmem] at hlt
      omega

/-- The scan never goes below its starting point. -/
theorem firstGap_ge (used : List Int) :
    ∀ (fuel : Nat) (n : Int), n ≤ firstGap used fuel n := by
  intro fuel
  induction fuel with
  | zero => intro n; simp [firstGap]
  | succ fuel ih =>
    intro n
    by_cases hmem : n ∈ used
    · simp [firstGap, hmem]
      have := ih (n + 1)
      omega
    · simp [firstGap, hmem]

/-- The allocated suffix is not in use. -/
theorem nextIp_not_mem (used : List Int) : nextIp used ∉ used := by
  obtain ⟨k, hk, hnk⟩ := exists_gap used 1
  exact firstGap_not_mem used used.length 1 ⟨k, hk, hnk⟩

/-- Every positive suffix below the allocated one is in use. -/
theorem nextIp_min (used : List Int) :
    ∀ m : Int, 1 ≤ m → m < nextIp used → m ∈ used := by
  intro m h1 h2
  exact firstGap_min used used.length 1 m h1 h2

/-- The allocated suffix is positive. -/
theorem nextIp_pos (used : List Int) : 1 ≤ nextIp used :=
  firstGap_ge used used.length 1

/-- The loop of `waitForNode` never emits a `stty` action: neither the
character-mode acquisition nor any restore happens inside or after the
loop. -/
theorem waitForNodeLoop_no_stty (evs : List Ev) (a : Act)
    (ha : a ∈ (waitForNodeLoop evs).1) :
    a ≠ Act.sttyCharMode ∧ a ≠ Act.sttyRestore := by
  induction evs with
  | nil => simp [waitForNodeLoop] at ha
  | cons e rest ih =>
    cases e with
    | pollEv key outData waiting =>
      by_cases hw : waiting = true
      · subst hw
        simp [waitForNodeLoop] at ha
        rcases ha with h | h | h
        · cases key with
          | none => simp at h
          | some c => simp at h; subst h; exact ⟨by simp, by simp⟩
        · cases outData with
          | none => simp at h
          | some d => simp at h; subst h; exact ⟨by simp, by simp⟩
        · exact ih h
      · have hw2 : waiting = false := by
          cases waiting
          · rfl
          · exact absurd rfl hw
        subst hw2
        simp [waitForNodeLoop] at ha
        rcases ha with h | h
        · cases key with
          | none => simp at h
          | some c => simp at h; subst h; exact ⟨by simp, by simp⟩
        · cases outData with
          | none => simp at h
          | some d => simp at h; subst h; exact ⟨by simp, by simp⟩
    | kbInt =>
      simp [waitForNodeLoop] at ha
      rcases ha with h | h
      · subst h; exact ⟨by simp, by simp⟩
      · exact ih h
    | selErr isEintr =>
      by_cases he : isEintr = true
      · subst he
        simp [waitForNodeLoop] at ha
        exact ih ha
      · have he2 : isEintr = false := by
          cases isEintr
          · rfl
          · exact absurd rfl he
        subst he2
        simp [waitForNodeLoop] at ha
        rcases ha with h | h | h
        · subst h; exact ⟨by simp, by simp⟩
        · subst h; exact ⟨by simp, by simp⟩
        · exact ih h

/-! Section: Claim theorems -/

/-- C1: for every input line whose first token is a registered node name
followed by at least one more token, the dispatcher splits the remainder
into tokens; a token that is a registered name with a resolved address is
replaced by that address, a registered name with no assigned address is
left unchanged (no substitution, no error), an unregistered token is left
unchanged; the re-joined string is the command sent to the node. -/
theorem C1_name_substitution (mn : Mn) (line first args : String)
    (hp : parseline line = some (first, args))
    (hm : Mn.containsName mn first = true)
    (ha : args ≠ "") :
    CLI.default mn line = DispatchResult.runOnNode first
      (joinSp ((splitCh ' ' args).map (fun tok =>
        match Mn.get? mn tok with
        | some e =>
          (match e.addr with
           | some a => if a = "" then tok else a
           | none => tok)
        | none => tok))) := by
  simp [CLI.default, hp, hm, ha]

/-- C1 witness: on `h1 ping h3 h2 foo` against `mnSub`, the dispatcher
sends `ping 10.0.0.3 h2 foo` to node `h1`: `h3` is substituted by its
address, `h2` (no address) and `foo` (unregistered) pass through. -/
theorem C1_witness :
    CLI.default mnSub "h1 ping h3 h2 foo" = DispatchResult.runOnNode "h1"
      (joinSp ((splitCh ' ' "ping h3 h2 foo").map (fun tok =>
        match Mn.get? mnSub tok with
        | some e =>
          (match e.addr with
           | some a => if a = "" then tok else a
           | none => tok)
        | none => tok)))
    ∧ CLI.default mnSub "h1 ping h3 h2 foo" =
        DispatchResult.runOnNode "h1" "ping 10.0.0.3 h2 foo" :=
  ⟨C1_name_substitution mnSub "h1 ping h3 h2 foo" "h1" "ping h3 h2 foo"
     (by decide) (by decide) (by decide),
   by decide⟩

/-- C2: for every `addhost` invocation whose host name already exists in
the Registry, the command fails with a duplicate-name error and the
Registry is left unchanged (same size and contents), with no host
constructed. -/
theorem C2_duplicate_name_rejected (mn : Mn) (line hostname : String)
    (rest : List String)
    (hsplit : pySplit line = hostname :: rest)
    (hdup : Mn.containsName mn hostname = true) :
    (do_addhost mn line).mn = mn
    ∧ (do_addhost mn line).calls = []
    ∧ (do_addhost mn line).outputs = [Msg.duplicate hostname] := by
  simp [do_addhost, hsplit, hdup]

/-- C2 witness: `addhost h1 ip=10.0.0.9` against a registry already
holding `h1` reports the duplicate and mutates nothing. -/
theorem C2_witness :
    (do_addhost mn12 "h1 ip=10.0.0.9").mn = mn12
    ∧ (do_addhost mn12 "h1 ip=10.0.0.9").calls = []
    ∧ (do_addhost mn12 "h1 ip=10.0.0.9").outputs = [Msg.duplicate "h1"] :=
  C2_duplicate_name_rejected mn12 "h1 ip=10.0.0.9" "h1" ["ip=10.0.0.9"]
    (by decide) (by decide)

/-- C3: for every `addhost` invocation with a fresh name and no `ip`
parameter, the assigned address is `10.0.0.N` where `N` is the smallest
positive integer not already used as the final octet by any existing host
whose address lies in the `10.0.0.x` block (first gap wins). -/
theorem C3_auto_ip_first_gap (mn : Mn) (line hostname : String)
    (rest : List String) (p0 : HParams)
    (hsplit : pySplit line = hostname :: rest)
    (hfresh : Mn.containsName mn hostname = false)
    (hparse : parseHostParams rest ⟨none, none, none⟩ = Except.ok p0)
    (hnoip : p0.ip = none) :
    ∃ N : Int,
      (do_addhost mn line).calls.map (fun c => c.2.ip)
        = [some ("10.0.0." ++ toString N), some ("10.0.0." ++ toString N)]
      ∧ 1 ≤ N
      ∧ N ∉ hostOctets mn.hosts
      ∧ ∀ m : Int, 1 ≤ m → m < N → m ∈ hostOctets mn.hosts := by
  refine ⟨nextIp (hostOctets mn.hosts), ?_, nextIp_pos _, nextIp_not_mem _,
          nextIp_min _⟩
  have hip : (fillAuto mn p0).ip = some (autoIp mn.hosts) := by
    obtain ⟨ip0, mac0, cls0⟩ := p0
    simp only at hnoip
    subst hnoip
    cases mac0 <;> simp [fillAuto]
  simp [do_addhost, hsplit, hfresh, hparse, hip, autoIp]

/-- C3 witness: with hosts at suffixes 1 and 2, `addhost h3` assigns
`10.0.0.3`, and the allocated suffix satisfies the first-gap property. -/
theorem C3_witness :
    ((do_addhost mn12 "h3").calls.map (fun c => c.2.ip)
        = [some "10.0.0.3", some "10.0.0.3"])
    ∧ ∃ N : Int,
        (do_addhost mn12 "h3").calls.map (fun c => c.2.ip)
          = [some ("10.0.0." ++ toString N), some ("10.0.0." ++ toString N)]
        ∧ 1 ≤ N
        ∧ N ∉ hostOctets mn12.hosts
        ∧ ∀ m : Int, 1 ≤ m → m < N → m ∈ hostOctets mn12.hosts :=
  ⟨by decide,
   C3_auto_ip_first_gap mn12 "h3" "h3" [] ⟨none, none, none⟩
     (by decide) (by decide) rfl rfl⟩

/-- C4: in the session runner's wait loop, a `KeyboardInterrupt` during
the wait is forwarded to the node as an interrupt (`sendInt`), the console
is not terminated and waiting continues; and the loop exits only after an
iteration observed the node's `waiting` flag cleared. -/
theorem C4_interrupt_forwarding :
    (∀ rest : List Ev, waitForNodeLoop (Ev.kbInt :: rest)
        = (Act.sendInt :: (waitForNodeLoop rest).1, (waitForNodeLoop rest).2))
    ∧ (∀ evs : List Ev, (waitForNodeLoop evs).2 = true →
        ∃ k d, Ev.pollEv k d false ∈ evs) := by
  constructor
  · intro rest
    rfl
  · intro evs
    induction evs with
    | nil =>
      intro h
      simp [waitForNodeLoop] at h
    | cons e rest ih =>
      intro h
      cases e with
      | pollEv k d w =>
        cases w with
        | false => exact ⟨k, d, List.mem_cons_self _ _⟩
        | true =>
          simp [waitForNodeLoop] at h
          obtain ⟨k2, d2, hm⟩ := ih h
          exact ⟨k2, d2, List.mem_cons_of_mem _ hm⟩
      | kbInt =>
        simp [waitForNodeLoop] at h
        obtain ⟨k2, d2, hm⟩ := ih h
        exact ⟨k2, d2, List.mem_cons_of_mem _ hm⟩
      | selErr isEintr =>
        cases isEintr with
        | true =>
          simp [waitForNodeLoop] at h
          obtain ⟨k2, d2, hm⟩ := ih h
          exact ⟨k2, d2, List.mem_cons_of_mem _ hm⟩
        | false =>
          simp [waitForNodeLoop] at h
          obtain ⟨k2, d2, hm⟩ := ih h
          exact ⟨k2, d2, List.mem_cons_of_mem _ hm⟩

/-- C4 witness: a `KeyboardInterrupt` on the empty continuation forwards
`sendInt` without terminating, and a trace that did exit contains a poll
iteration with the waiting flag cleared. -/
theorem C4_witness :
    (waitForNodeLoop [Ev.kbInt]
        = (Act.sendInt :: (waitForNodeLoop []).1, (waitForNodeLoop []).2))
    ∧ ∃ k d, Ev.pollEv k d false ∈ [Ev.pollEv none none false] :=
  ⟨C4_interrupt_forwarding.1 [],
   C4_interrupt_forwarding.2 [Ev.pollEv none none false] (by decide)⟩

/-- C5 counterexample: on a tty session whose command completes at the
first poll, the session runner emits the character-mode `stty` call and
the loop exits, but no restore action is ever emitted — refuting the
claimed scoped release of the terminal mode on loop exit. -/
theorem C5_counterexample :
    (waitForNode true [Ev.pollEv none none false]).2 = true
    ∧ Act.sttyCharMode ∈ (waitForNode true [Ev.pollEv none none false]).1
    ∧ Act.sttyRestore ∉ (waitForNode true [Ev.pollEv none none false]).1 := by
  decide

/-- C5 amended: on an interactive terminal the session runner puts the
console input into character-at-a-time mode before entering the wait loop
(first action), but performs no restore whatsoever — on no trace does any
restore action occur, and the loop itself emits no terminal-mode change. -/
theorem C5_char_mode_no_restore (tty : Bool) (evs : List Ev) :
    (waitForNode true evs).1.head? = some Act.sttyCharMode
    ∧ Act.sttyRestore ∉ (waitForNode tty evs).1
    ∧ Act.sttyCharMode ∉ (waitForNodeLoop evs).1 := by
  refine ⟨rfl, ?_, ?_⟩
  · intro hmem
    cases tty with
    | false =>
      simp [waitForNode] at hmem
      exact (waitForNodeLoop_no_stty evs _ hmem).2 rfl
    | true =>
      simp [waitForNode] at hmem
      exact (waitForNodeLoop_no_stty evs _ hmem).2 rfl
  · intro hmem
    exact (waitForNodeLoop_no_stty evs _ hmem).1 rfl

/-- C5 witness: the amended statement at a concrete one-iteration trace. -/
theorem C5_witness :
    (waitForNode true [Ev.kbInt]).1.head? = some Act.sttyCharMode
    ∧ Act.sttyRestore ∉ (waitForNode true [Ev.kbInt]).1
    ∧ Act.sttyCharMode ∉ (waitForNodeLoop [Ev.kbInt]).1 :=
  C5_char_mode_no_restore true [Ev.kbInt]

/-- C6 counterexample: `addhost x ip=10.0.0.999` does not fail validation:
no format error is emitted, the host constructor is invoked, and the
registry is mutated — refuting the claim that this line fails with a
format error and no mutation. -/
theorem C6_counterexample :
    Msg.invalidIp "10.0.0.999" ∉ (do_addhost mnEmpty "x ip=10.0.0.999").outputs
    ∧ (do_addhost mnEmpty "x ip=10.0.0.999").calls ≠ []
    ∧ (do_addhost mnEmpty "x ip=10.0.0.999").mn ≠ mnEmpty := by
  decide

/-- C6 amended: the syntactic check is exactly four dot-separated groups
of 1–3 decimal digits (format, not range), so `10.0.0.999` passes and the
host is added with that address, while an address violating the format
such as `10.0.0.1000` fails with a format error and performs no
mutation. -/
theorem C6_format_check :
    validIp "10.0.0.999" = true
    ∧ (do_addhost mnEmpty "x ip=10.0.0.999").outputs
        = [Msg.addedInfo "x" "10.0.0.999" "00:00:00:00:00:01",
           Msg.isolatedInfo "x"]
    ∧ (do_addhost mnEmpty "x ip=10.0.0.999").calls.map (fun c => c.2.ip)
        = [some "10.0.0.999", some "10.0.0.999"]
    ∧ validIp "10.0.0.1000" = false
    ∧ do_addhost mnEmpty "x ip=10.0.0.1000"
        = ⟨mnEmpty, [Msg.invalidIp "10.0.0.1000"], []⟩ := by
  decide

/-- C7 counterexample: for `addlink a b bw=10 delay=5ms` the dictionary
passed to the link constructor binds both keys to strings (`bw` to the
string `10`), so it differs from the claimed dictionary in which `bw` is
the numeric value 10. -/
theorem C7_counterexample :
    (do_addlink mnAB "a b bw=10 delay=5ms").calls
        = [("a", "b", [("bw", "10"), ("delay", "5ms")])]
    ∧ asPVals [("bw", "10"), ("delay", "5ms")] ≠ claimedAddlinkParamsC7 := by
  decide

/-- C7 amended: for `addlink a b bw=10 delay=5ms` with both endpoints
registered, the dictionary passed to the link constructor contains exactly
the keys `bw` and `delay`, bound to the strings `10` and `5ms` (values are
passed through as strings, with no numeric conversion and no extra keys),
and no exception escapes. -/
theorem C7_string_params (mn : Mn)
    (h1 : Mn.containsName mn "a" = true)
    (h2 : Mn.containsName mn "b" = true) :
    (do_addlink mn "a b bw=10 delay=5ms").calls
        = [("a", "b", [("bw", "10"), ("delay", "5ms")])]
    ∧ (do_addlink mn "a b bw=10 delay=5ms").exn = none := by
  have hsplit : pySplit "a b bw=10 delay=5ms" = ["a", "b", "bw=10", "delay=5ms"] := by
    decide
  have hps : parseLinkParams ["bw=10", "delay=5ms"] = [("bw", "10"), ("delay", "5ms")] := by
    decide
  simp [do_addlink, hsplit, hps, Mininet.addLink, h1, h2]

/-- C7 witness: the amended parameter-passing statement at the concrete
registry holding `a` and `b`. -/
theorem C7_witness :
    (do_addlink mnAB "a b bw=10 delay=5ms").calls
        = [("a", "b", [("bw", "10"), ("delay", "5ms")])]
    ∧ (do_addlink mnAB "a b bw=10 delay=5ms").exn = none :=
  C7_string_params mnAB (by decide) (by decide)

/-- C8 counterexample: `addlink a b` with `b` unregistered emits no error
message to the console output stream; instead the engine lookup exception
escapes the handler (the registry is left unchanged) — refuting the claim
that the failure is reported as a console message and the read-loop
continues. -/
theorem C8_counterexample :
    (do_addlink mnA "a b").msgs = []
    ∧ (do_addlink mnA "a b").exn = some "KeyError: b"
    ∧ (do_addlink mnA "a b").mn = mnA := by
  decide

/-- C8 amended: for every `addlink` invocation in which either endpoint
name is unregistered, no link is constructed or registered and the
registry is unchanged, but the handler reports no message: the failure is
an engine lookup exception escaping the handler. -/
theorem C8_unknown_endpoint (mn : Mn) (line n1 n2 : String)
    (rest : List String)
    (hsplit : pySplit line = n1 :: n2 :: rest)
    (hunk : Mn.containsName mn n1 = false ∨ Mn.containsName mn n2 = false) :
    (do_addlink mn line).mn = mn
    ∧ (do_addlink mn line).msgs = []
    ∧ (do_addlink mn line).exn ≠ none := by
  rcases hunk with h | h
  · simp [do_addlink, hsplit, Mininet.addLink, h]
  · cases h1 : Mn.containsName mn n1 with
    | false => simp [do_addlink, hsplit, Mininet.addLink, h1]
    | true => simp [do_addlink, hsplit, Mininet.addLink, h1, h]

/-- C8 witness: the amended statement at the concrete registry holding
only `a`, for the line `a b`. -/
theorem C8_witness :
    (do_addlink mnA "a b").mn = mnA
    ∧ (do_addlink mnA "a b").msgs = []
    ∧ (do_addlink mnA "a b").exn ≠ none :=
  C8_unknown_endpoint mnA "a b" "a" "b" [] (by decide) (Or.inr (by decide))

/-- C9: evaluating `do_source` at the failing input: when `open` raises
`IOError` and no batch file was previously open (`self.inputFile` is
`None`), the failure is reported but the unconditional
`self.inputFile.close()` raises `AttributeError`, which escapes the
handler — whereas a read failure after a successful `open` is reported
and recovered gracefully. -/
theorem C9_source_open_failure :
    (do_source FsBehavior.openErr none "badfile").msgs = [Msg.srcIoError "badfile"]
    ∧ (do_source FsBehavior.openErr none "badfile").exn
        = some "AttributeError: NoneType object has no attribute close"
    ∧ (do_source (FsBehavior.readErr ["cmd1"]) none "f").msgs = [Msg.srcIoError "f"]
    ∧ (do_source (FsBehavior.readErr ["cmd1"]) none "f").exn = none := by
  decide

/-- C10: for every `addhost` parameter `cls=<value>`, whatever value
follows `cls=` is discarded without validation or error and the stored
class is the default `Host` class, independent of the supplied value. -/
theorem C10_cls_value_discarded (v : String) (acc : HParams) :
    processParam acc ("cls=" ++ v) = Except.ok { acc with cls := some HostCls.Host } := by
  have hdata : ("cls=" ++ v).data = 'c' :: 'l' :: 's' :: '=' :: v.data := rfl
  have h1 : hasEq ("cls=" ++ v) = true := by
    simp [hasEq, hdata]
  have h2 : splitEq1 ("cls=" ++ v) = ("cls", v) := by
    simp [splitEq1, hdata, splitFirstEq]
  simp [processParam, h1, h2]

/-- C10 witness: `cls=MyWeirdClass` is accepted, the value is dropped and
the default `Host` class stored. -/
theorem C10_witness :
    processParam ⟨none, none, none⟩ ("cls=" ++ "MyWeirdClass")
      = Except.ok ⟨none, none, some HostCls.Host⟩ :=
  C10_cls_value_discarded "MyWeirdClass" ⟨none, none, none⟩

end MininetCLI
